import Mathlib

/-!
Verification development for the STOCK-CALCULATOR repository.

The repository is an Express + Socket.IO + PostgreSQL stock-counting tool.
Two server variants exist: `src/server.js` (endpoints `GET /api/stocks`
with ORDER BY name, `POST /api/stocks` single upsert with a `!name` guard,
`POST /api/stocks/bulk`) and `src/unnamed/part_000` (endpoints
`GET /api/stocks` without ORDER BY, `POST /api/stocks/update` single
update-then-insert without a name guard, `POST /api/stocks/bulk`).
The browser client is `src/unnamed/part_001` (`script.js`).

Rows are shallowly embedded: SQL `INTEGER` columns that may receive a JS
`undefined` parameter (which the pg driver sends as NULL) are `Option Int`;
TEXT columns are `Option String`; the `stocks` table is a list of rows in
insertion (heap) order; `CURRENT_TIMESTAMP` is an explicit `now : Nat`
argument.  Storage failure is an explicit oracle argument (`dbOk : Bool`
for single queries, a failing-query index for the bulk transaction).
-/

namespace StockCalc

/-- One row of the `stocks` table (`CREATE TABLE` in both server variants).
Counter columns are nullable INTEGERs, so `Option Int`. -/
structure StockRow where
  name : String
  provider : Option String
  validity : Option String
  quota : Option String
  atas : Option Int
  bawah : Option Int
  belakang : Option Int
  komputer : Option Int
  total_fisik : Option Int
  updated_at : Nat
  deriving Repr, DecidableEq

/-- A request-body JSON object as destructured by the endpoints:
every field may be absent (`none` = JS `undefined`). -/
structure StockPayload where
  name : Option String
  provider : Option String
  validity : Option String
  quota : Option String
  atas : Option Int
  bawah : Option Int
  belakang : Option Int
  komputer : Option Int
  total_fisik : Option Int
  deriving Repr, DecidableEq

/-- The `stocks` table, rows in insertion order. -/
abbrev Store := List StockRow

/-- JS truthiness test `!name` on the payload's `name` field:
true when the field is absent (`undefined`) or the empty string. -/
def nameFalsy (p : StockPayload) : Bool :=
  match p.name with
  | none => true
  | some s => s == ""

/-- The name a payload carries (only meaningful when `nameFalsy p = false`). -/
def jsName (p : StockPayload) : String :=
  p.name.getD ""

/-- JS `x || ''` applied to a possibly-absent string field. -/
def jsOrEmpty (o : Option String) : String :=
  o.getD ""

/-- `SELECT ... WHERE name = n LIMIT 1`-style lookup (first match). -/
def findRow (st : Store) (n : String) : Option StockRow :=
  st.find? (fun r => r.name == n)

/-- Whether some row with primary key `n` exists in the table. -/
def containsName (st : Store) (n : String) : Bool :=
  st.any (fun r => r.name == n)

/-- The `INSERT ... ON CONFLICT(name) DO UPDATE SET atas, bawah, belakang,
komputer, total_fisik, updated_at` statement of `POST /api/stocks`
(src/server.js lines 83-95).  On conflict only the five counter columns and
`updated_at` are overwritten; `provider`, `validity`, `quota` keep their
stored values.  On insert the three text columns receive `field || ''` and
the counters the raw body values (NULL when absent).  Returns the new table
and the `RETURNING *` row. -/
def upsertRowServer (st : Store) (now : Nat) (p : StockPayload) (n : String) :
    Store × StockRow :=
  match findRow st n with
  | some old =>
      let row : StockRow :=
        { old with
          atas := p.atas, bawah := p.bawah, belakang := p.belakang,
          komputer := p.komputer, total_fisik := p.total_fisik,
          updated_at := now }
      (st.map (fun r => if r.name == n then row else r), row)
  | none =>
      let row : StockRow :=
        ⟨n, some (jsOrEmpty p.provider), some (jsOrEmpty p.validity),
         some (jsOrEmpty p.quota), p.atas, p.bawah, p.belakang,
         p.komputer, p.total_fisik, now⟩
      (st ++ [row], row)

/-- Outcome of a single-row endpoint call: resulting table, HTTP status,
the `data` field of the JSON response, and the list of
`io.emit('stock_update', ...)` broadcast payloads sent during the call. -/
structure SingleResult where
  store : Store
  status : Nat
  data : Option StockRow
  emits : List StockRow
  deriving Repr, DecidableEq

/-- `POST /api/stocks` (src/server.js lines 73-109): reject with 400 when
`!name`; otherwise run the upsert; on query success emit exactly one
`stock_update` with the `RETURNING *` row and answer 200; on query failure
(`dbOk = false`) answer 500 with no emit and no table change. -/
def postStocks (st : Store) (now : Nat) (p : StockPayload) (dbOk : Bool) :
    SingleResult :=
  if nameFalsy p then ⟨st, 400, none, []⟩
  else if dbOk then
    let res := upsertRowServer st now p (jsName p)
    ⟨res.1, 200, some res.2, [res.2]⟩
  else ⟨st, 500, none, []⟩

/-- `POST /api/stocks/update` (src/unnamed/part_000 lines 72-114).
No name guard.  First `UPDATE ... WHERE name = $6 RETURNING *`; when it
matched a row, emit it and answer 200.  When it matched nothing, a plain
`INSERT` of all nine columns runs: with `name` absent the pg driver passes
NULL and the primary-key NOT NULL constraint rejects it (caught as 500,
nothing emitted); with `name` present (even the empty string) the insert
succeeds, is emitted, and the call answers 200.  `dbOk = false` models a
storage failure of the first query. -/
def postStocksUpdate (st : Store) (now : Nat) (p : StockPayload)
    (dbOk : Bool) : SingleResult :=
  if dbOk then
    match p.name with
    | none => ⟨st, 500, none, []⟩
    | some n =>
        match findRow st n with
        | some old =>
            let row : StockRow :=
              { old with
                atas := p.atas, bawah := p.bawah, belakang := p.belakang,
                komputer := p.komputer, total_fisik := p.total_fisik,
                updated_at := now }
            (⟨st.map (fun r => if r.name == n then row else r),
              200, some row, [row]⟩ : SingleResult)
        | none =>
            let row : StockRow :=
              ⟨n, some (jsOrEmpty p.provider), some (jsOrEmpty p.validity),
               some (jsOrEmpty p.quota), p.atas, p.bawah, p.belakang,
               p.komputer, p.total_fisik, now⟩
            (⟨st ++ [row], 200, some row, [row]⟩ : SingleResult)
  else ⟨st, 500, none, []⟩

/-- The row written for one bulk item (both bulk endpoints, identical SQL):
JS destructuring defaults substitute `''` for missing text fields and `0`
for missing counter fields before the query runs. -/
def bulkRow (now : Nat) (p : StockPayload) : StockRow :=
  ⟨jsName p, some (jsOrEmpty p.provider), some (jsOrEmpty p.validity),
   some (jsOrEmpty p.quota), some (p.atas.getD 0), some (p.bawah.getD 0),
   some (p.belakang.getD 0), some (p.komputer.getD 0),
   some (p.total_fisik.getD 0), now⟩

/-- The bulk `INSERT ... ON CONFLICT(name) DO UPDATE SET` statement:
on conflict ALL non-key columns are overwritten from EXCLUDED. -/
def upsertRowBulk (st : Store) (row : StockRow) : Store :=
  if containsName st row.name then
    st.map (fun r => if r.name == row.name then row else r)
  else st ++ [row]

/-- The items of the batch that survive the `if (!item || !item.name)
continue;` filter: those whose `name` is present and non-empty. -/
def validItems (items : List StockPayload) : List StockPayload :=
  items.filter (fun p => !(nameFalsy p))

/-- A parsed JSON request body for the bulk endpoint: an array of row
payloads, a name-keyed object, or anything else (string, number, ...). -/
inductive BulkBody where
  | arr (items : List StockPayload)
  | obj (fields : List (String × StockPayload))
  | scalar
  deriving Repr, DecidableEq

/-- Outcome of a bulk endpoint call: resulting table, HTTP status, the
`count` field of the JSON response, and broadcast payloads (none are ever
sent by either variant's bulk endpoint). -/
structure BulkResult where
  store : Store
  status : Nat
  count : Option Nat
  emits : List StockRow
  deriving Repr, DecidableEq

/-- `POST /api/stocks/bulk` (src/server.js lines 113-165 and
src/unnamed/part_000 lines 118-165, identical logic).  The body must be a
non-empty JS array (`Array.isArray`), otherwise 400; a name-keyed object
is NOT accepted.  Valid items are applied inside one BEGIN/COMMIT
transaction; `failAt = some k` means the k-th per-item query (0-based,
counting only executed queries, i.e. valid items) throws, so ROLLBACK
restores the table unchanged and the call answers 500.  On success the
response count is `items.length` — the number of submitted items,
including skipped invalid ones.  No broadcast is emitted on any path
(src/server.js line 151 is commented out; part_000 emits nothing). -/
def postStocksBulk (st : Store) (now : Nat) (body : BulkBody)
    (failAt : Option Nat) : BulkResult :=
  match body with
  | .arr items =>
      if items.length = 0 then ⟨st, 400, none, []⟩
      else
        let valid := validItems items
        let apply := valid.foldl (fun s p => upsertRowBulk s (bulkRow now p)) st
        match failAt with
        | some k =>
            if k < valid.length then ⟨st, 500, none, []⟩
            else ⟨apply, 200, some items.length, []⟩
        | none => ⟨apply, 200, some items.length, []⟩
  | _ => ⟨st, 400, none, []⟩

/-- Insertion step for name-ordered output, modelling `ORDER BY name`. -/
def insertByName (r : StockRow) : List StockRow → List StockRow
  | [] => [r]
  | x :: xs => if r.name ≤ x.name then r :: x :: xs else x :: insertByName r xs

/-- `ORDER BY name` over the whole table. -/
def sortByName (st : Store) : List StockRow :=
  st.foldr insertByName []

/-- Outcome of the GET endpoint: HTTP status and JSON array (when 200). -/
structure GetResult where
  status : Nat
  data : Option (List StockRow)
  deriving Repr, DecidableEq

/-- `GET /api/stocks` of src/server.js (lines 61-69):
`SELECT * FROM stocks ORDER BY name`, 500 on storage failure. -/
def getStocks (st : Store) (dbOk : Bool) : GetResult :=
  if dbOk then ⟨200, some (sortByName st)⟩ else ⟨500, none⟩

/-- `GET /api/stocks` of src/unnamed/part_000 (lines 61-69):
`SELECT * FROM stocks` with no ORDER BY — rows come back in table (heap)
order; 500 on storage failure. -/
def getStocksNoOrder (st : Store) (dbOk : Bool) : GetResult :=
  if dbOk then ⟨200, some st⟩ else ⟨500, none⟩

/-!
Client model (src/unnamed/part_001, `script.js`).  One displayed table row
holds the four counter inputs and the derived total cell; DOM values are
read through `parseInt(...) || 0`, so they are plain integers here.
A function's outbound network traffic is returned explicitly as a list of
`ClientMsg`; assigning `element.value` programmatically fires no `oninput`
handler, so only the statements of a function's own body can send.
-/

/-- One rendered table row of the client page. -/
structure ClientRow where
  name : String
  atas : Int
  bawah : Int
  belakang : Int
  komputer : Int
  total_fisik : Int
  deriving Repr, DecidableEq

/-- JS `row.field || 0` on a broadcast payload field. -/
def jsOrZero (o : Option Int) : Int :=
  o.getD 0

/-- `hitungTotal` (part_001 lines 316-327): recompute the derived total
cell from the three location inputs of the row. -/
def hitungTotal (r : ClientRow) : ClientRow :=
  { r with total_fisik := r.atas + r.bawah + r.belakang }

/-- An outbound request issued by the client: a `POST /api/stocks` single
update (`sendRowUpdate`) or a `POST /api/stocks/bulk` snapshot
(`sendBulkSnapshot`). -/
inductive ClientMsg where
  | single (p : StockPayload)
  | bulk (ps : List StockPayload)
  deriving Repr, DecidableEq

/-- The payload `sendRowUpdate` (part_001 lines 104-128) builds from a
displayed row: the name is split on `' | '` into provider, quota,
validity, and the five counters are read from the DOM. -/
def rowPayload (r : ClientRow) : StockPayload :=
  let parts := r.name.splitOn " | "
  ⟨some r.name, some (parts.getD 0 ""), some (parts.getD 2 ""),
   some (parts.getD 1 ""), some r.atas, some r.bawah, some r.belakang,
   some r.komputer, some r.total_fisik⟩

/-- `ubahStok` on an `atas_<id>` plus/minus button (part_001 lines
298-314): adjust the input, `hitungTotal`, then `saveStockData` (which
issues the debounced bulk snapshot) and `sendRowUpdate` — the local-edit
path DOES send traffic, in contrast with `applyRemoteUpdate`. -/
def ubahStokAtas (table : List ClientRow) (rowName : String) (plus : Bool) :
    List ClientRow × List ClientMsg :=
  let table2 := table.map (fun r =>
    if r.name == rowName then
      let v := if plus then r.atas + 1
               else if 0 < r.atas then r.atas - 1 else r.atas
      hitungTotal { r with atas := v }
    else r)
  match (table2.filter (fun r => r.name == rowName)).head? with
  | some r => (table2, [.bulk (table2.map rowPayload), .single (rowPayload r)])
  | none => (table2, [.bulk (table2.map rowPayload)])

/-- `applyRemoteUpdate` (part_001 lines 479-494), the `stock_update`
socket handler: walk the displayed rows, and at the first row whose name
cell matches the broadcast payload overwrite the four counter inputs with
`row.field || 0` and run `hitungTotal`; then return.  The body contains no
`sendRowUpdate`/`saveStockData` call and value assignment fires no input
event, so the returned message list records everything it sends. -/
def applyRemoteUpdate : List ClientRow → StockRow →
    List ClientRow × List ClientMsg
  | [], _ => ([], [])
  | tr :: rest, row =>
      if tr.name == row.name then
        (hitungTotal
          { tr with
            atas := jsOrZero row.atas, bawah := jsOrZero row.bawah,
            belakang := jsOrZero row.belakang,
            komputer := jsOrZero row.komputer } :: rest, [])
      else
        let res := applyRemoteUpdate rest row
        (tr :: res.1, res.2)

/-! Helper lemmas about table lookup and the bulk transaction loop. -/

lemma findRow_name {st : Store} {n : String} {r : StockRow}
    (h : findRow st n = some r) : r.name = n := by
  have hp := List.find?_some h
  simpa using hp

lemma containsName_of_findRow {st : Store} {n : String} {r : StockRow}
    (h : findRow st n = some r) : containsName st n = true := by
  have hmem := List.mem_of_find?_eq_some h
  have hp := List.find?_some h
  simp only [containsName, List.any_eq_true]
  exact ⟨r, hmem, hp⟩

lemma containsName_false_of_findRow_none {st : Store} {n : String}
    (h : findRow st n = none) : containsName st n = false := by
  simp only [findRow, List.find?_eq_none] at h
  simp only [containsName, List.any_eq_false]
  exact h

lemma findRow_append_self {st : Store} {n : String} {row : StockRow}
    (h : findRow st n = none) (hr : row.name = n) :
    findRow (st ++ [row]) n = some row := by
  simp only [findRow] at h ⊢
  rw [List.find?_append, h]
  simp [hr]

lemma findRow_map_set {st : Store} {n : String} {v : StockRow}
    (hc : containsName st n = true) (hv : v.name = n) :
    findRow (st.map (fun r => if r.name == n then v else r)) n = some v := by
  induction st with
  | nil => simp [containsName] at hc
  | cons x xs ih =>
      by_cases hx : x.name = n
      · simp [findRow, hx, hv]
      · have hc' : containsName xs n = true := by
          simp only [containsName, List.any_cons, Bool.or_eq_true] at hc
          rcases hc with h1 | h1
          · exact absurd (by simpa using h1) hx
          · simpa [containsName] using h1
        have hnew := ih hc'
        simp only [findRow, List.map_cons] at hnew ⊢
        rw [List.find?_cons_of_neg]
        · exact hnew
        · simp [hx]

/-- The per-transaction loop body of the bulk endpoints. -/
def bulkApply (st : Store) (now : Nat) (l : List StockPayload) : Store :=
  l.foldl (fun s p => upsertRowBulk s (bulkRow now p)) st

lemma containsName_upsertRowBulk_self (st : Store) (row : StockRow) :
    containsName (upsertRowBulk st row) row.name = true := by
  unfold upsertRowBulk
  by_cases h : containsName st row.name = true
  · simp only [h, if_true]
    simp only [containsName, List.any_eq_true] at h ⊢
    obtain ⟨r, hmem, hp⟩ := h
    exact ⟨row, List.mem_map.mpr ⟨r, hmem, by simp [hp]⟩, by simp⟩
  · simp only [Bool.not_eq_true] at h
    simp only [h, Bool.false_eq_true, if_false]
    simp [containsName]

lemma containsName_upsertRowBulk_mono {st : Store} {n : String}
    (row : StockRow) (h : containsName st n = true) :
    containsName (upsertRowBulk st row) n = true := by
  unfold upsertRowBulk
  by_cases hc : containsName st row.name = true
  · simp only [hc, if_true]
    simp only [containsName, List.any_eq_true] at h ⊢
    obtain ⟨r, hmem, hp⟩ := h
    by_cases hr : r.name = row.name
    · refine ⟨row, List.mem_map.mpr ⟨r, hmem, by simp [hr]⟩, ?_⟩
      simp only [beq_iff_eq] at hp
      simp [← hp, hr]
    · exact ⟨r, List.mem_map.mpr ⟨r, hmem, by simp [hr]⟩, hp⟩
  · simp only [Bool.not_eq_true] at hc
    simp only [hc, Bool.false_eq_true, if_false]
    simp only [containsName, List.any_eq_true] at h ⊢
    obtain ⟨r, hmem, hp⟩ := h
    exact ⟨r, List.mem_append_left _ hmem, hp⟩

lemma containsName_upsertRowBulk_cases {st : Store} {n : String}
    {row : StockRow} (h : containsName (upsertRowBulk st row) n = true) :
    containsName st n = true ∨ n = row.name := by
  unfold upsertRowBulk at h
  by_cases hc : containsName st row.name = true
  · simp only [hc, if_true] at h
    simp only [containsName, List.any_eq_true] at h ⊢
    obtain ⟨r, hmem, hp⟩ := h
    obtain ⟨r0, hr0, heq⟩ := List.mem_map.mp hmem
    by_cases h0 : r0.name = row.name
    · simp only [h0, beq_self_eq_true, if_true] at heq
      subst heq
      right
      have hrn : row.name = n := by simpa using hp
      exact hrn.symm
    · simp only [beq_iff_eq, h0, if_false] at heq
      subst heq
      exact Or.inl ⟨r0, hr0, hp⟩
  · simp only [Bool.not_eq_true] at hc
    simp only [hc, Bool.false_eq_true, if_false] at h
    simp only [containsName, List.any_eq_true] at h ⊢
    obtain ⟨r, hmem, hp⟩ := h
    rcases List.mem_append.mp hmem with hl | hr
    · exact Or.inl ⟨r, hl, hp⟩
    · right
      simp only [List.mem_singleton] at hr
      have hrn : r.name = n := by simpa using hp
      rw [← hr]
      exact hrn.symm

lemma containsName_bulkApply_mono {now : Nat} {n : String}
    (l : List StockPayload) (st : Store)
    (h : containsName st n = true) :
    containsName (bulkApply st now l) n = true := by
  induction l generalizing st with
  | nil => simpa [bulkApply] using h
  | cons p ps ih =>
      simp only [bulkApply, List.foldl_cons]
      exact ih _ (containsName_upsertRowBulk_mono _ h)

lemma containsName_bulkApply_mem {now : Nat} {p : StockPayload}
    (l : List StockPayload) (st : Store) (hp : p ∈ l) :
    containsName (bulkApply st now l) (jsName p) = true := by
  induction l generalizing st with
  | nil => cases hp
  | cons q qs ih =>
      simp only [bulkApply, List.foldl_cons]
      rcases List.mem_cons.mp hp with rfl | hmem
      · have : containsName (upsertRowBulk st (bulkRow now p)) (jsName p) = true := by
          have := containsName_upsertRowBulk_self st (bulkRow now p)
          simpa [bulkRow] using this
        exact containsName_bulkApply_mono qs _ this
      · exact ih _ hmem

lemma containsName_bulkApply_cases {now : Nat} {n : String}
    (l : List StockPayload) (st : Store)
    (h : containsName (bulkApply st now l) n = true) :
    containsName st n = true ∨ ∃ p ∈ l, jsName p = n := by
  induction l generalizing st with
  | nil => exact Or.inl (by simpa [bulkApply] using h)
  | cons q qs ih =>
      simp only [bulkApply, List.foldl_cons] at h
      rcases ih _ h with h2 | h2
      · rcases containsName_upsertRowBulk_cases h2 with h3 | h3
        · exact Or.inl h3
        · exact Or.inr ⟨q, List.mem_cons_self _ _, by simpa [bulkRow] using h3.symm⟩
      · obtain ⟨p, hmem, hpn⟩ := h2
        exact Or.inr ⟨p, List.mem_cons_of_mem _ hmem, hpn⟩

/-! Lemmas about `ORDER BY name` (the insertion sort `sortByName`). -/

/-- The row order realised by `ORDER BY name`. -/
def rowLe (a b : StockRow) : Prop :=
  a.name ≤ b.name

instance : DecidableRel rowLe :=
  fun a b => inferInstanceAs (Decidable (a.name ≤ b.name))

lemma perm_insertByName (r : StockRow) (l : List StockRow) :
    (insertByName r l).Perm (r :: l) := by
  induction l with
  | nil => simp [insertByName]
  | cons x xs ih =>
      by_cases hle : r.name ≤ x.name
      · simp [insertByName, hle]
      · simp only [insertByName, if_neg hle]
        exact List.Perm.trans (ih.cons x) (List.Perm.swap r x xs)

lemma sorted_insertByName (r : StockRow) {l : List StockRow}
    (h : l.Sorted rowLe) : (insertByName r l).Sorted rowLe := by
  induction l with
  | nil => simp [insertByName]
  | cons x xs ih =>
      rw [List.sorted_cons] at h
      obtain ⟨hx, hxs⟩ := h
      by_cases hle : r.name ≤ x.name
      · simp only [insertByName, if_pos hle]
        rw [List.sorted_cons]
        refine ⟨?_, ?_⟩
        · intro b hb
          rcases List.mem_cons.mp hb with rfl | hb
          · exact hle
          · exact le_trans hle (hx b hb)
        · rw [List.sorted_cons]
          exact ⟨hx, hxs⟩
      · simp only [insertByName, if_neg hle]
        rw [List.sorted_cons]
        refine ⟨?_, ih hxs⟩
        intro b hb
        have hb' := (perm_insertByName r xs).mem_iff.mp hb
        rcases List.mem_cons.mp hb' with rfl | hb'
        · exact le_of_not_le hle
        · exact hx b hb'

lemma sorted_sortByName (st : Store) : (sortByName st).Sorted rowLe := by
  induction st with
  | nil => simp [sortByName]
  | cons x xs ih =>
      simp only [sortByName, List.foldr_cons]
      exact sorted_insertByName x ih

lemma perm_sortByName (st : Store) : (sortByName st).Perm st := by
  induction st with
  | nil => simp [sortByName]
  | cons x xs ih =>
      simp only [sortByName, List.foldr_cons]
      exact (perm_insertByName x _).trans (ih.cons x)

/-! Lemmas about the single-row endpoints' success paths. -/

lemma nameFalsy_false {p : StockPayload} (h : nameFalsy p = false) :
    p.name = some (jsName p) ∧ jsName p ≠ "" := by
  cases hn : p.name with
  | none => simp [nameFalsy, hn] at h
  | some s =>
      have hs : ¬(s = "") := by
        intro he
        simp [nameFalsy, hn, he] at h
      refine ⟨by simp [jsName, hn], ?_⟩
      simpa [jsName, hn] using hs

lemma upsertRowServer_spec (st : Store) (now : Nat) (p : StockPayload)
    (n : String) :
    (upsertRowServer st now p n).2.name = n ∧
    (upsertRowServer st now p n).2.atas = p.atas ∧
    (upsertRowServer st now p n).2.bawah = p.bawah ∧
    (upsertRowServer st now p n).2.belakang = p.belakang ∧
    (upsertRowServer st now p n).2.komputer = p.komputer ∧
    (upsertRowServer st now p n).2.total_fisik = p.total_fisik ∧
    (upsertRowServer st now p n).2.updated_at = now ∧
    findRow (upsertRowServer st now p n).1 n =
      some (upsertRowServer st now p n).2 := by
  cases hf : findRow st n with
  | some old =>
      have hname := findRow_name hf
      have hc := containsName_of_findRow hf
      unfold upsertRowServer
      rw [hf]
      exact ⟨hname, rfl, rfl, rfl, rfl, rfl, rfl, findRow_map_set hc hname⟩
  | none =>
      unfold upsertRowServer
      rw [hf]
      exact ⟨rfl, rfl, rfl, rfl, rfl, rfl, rfl, findRow_append_self hf rfl⟩

lemma postStocks_success (st : Store) (now : Nat) (p : StockPayload)
    (h : nameFalsy p = false) :
    postStocks st now p true =
      ⟨(upsertRowServer st now p (jsName p)).1, 200,
       some (upsertRowServer st now p (jsName p)).2,
       [(upsertRowServer st now p (jsName p)).2]⟩ := by
  simp [postStocks, h]

lemma postStocksUpdate_success (st : Store) (now : Nat) (p : StockPayload)
    (n : String) (hn : p.name = some n) :
    ∃ st2 row, postStocksUpdate st now p true = ⟨st2, 200, some row, [row]⟩ ∧
      row.name = n ∧ row.atas = p.atas ∧ row.bawah = p.bawah ∧
      row.belakang = p.belakang ∧ row.komputer = p.komputer ∧
      row.total_fisik = p.total_fisik ∧ row.updated_at = now ∧
      findRow st2 n = some row := by
  cases hf : findRow st n with
  | some old =>
      have hname := findRow_name hf
      have hc := containsName_of_findRow hf
      refine ⟨st.map (fun r => if r.name == n then
          { old with
            atas := p.atas, bawah := p.bawah, belakang := p.belakang,
            komputer := p.komputer, total_fisik := p.total_fisik,
            updated_at := now } else r),
        { old with
          atas := p.atas, bawah := p.bawah, belakang := p.belakang,
          komputer := p.komputer, total_fisik := p.total_fisik,
          updated_at := now }, ?_, hname, rfl, rfl, rfl, rfl, rfl, rfl, ?_⟩
      · simp [postStocksUpdate, hn, hf]
      · exact findRow_map_set hc hname
  | none =>
      refine ⟨st ++ [⟨n, some (jsOrEmpty p.provider), some (jsOrEmpty p.validity),
          some (jsOrEmpty p.quota), p.atas, p.bawah, p.belakang,
          p.komputer, p.total_fisik, now⟩],
        ⟨n, some (jsOrEmpty p.provider), some (jsOrEmpty p.validity),
         some (jsOrEmpty p.quota), p.atas, p.bawah, p.belakang,
         p.komputer, p.total_fisik, now⟩,
        ?_, rfl, rfl, rfl, rfl, rfl, rfl, rfl, ?_⟩
      · simp [postStocksUpdate, hn, hf]
      · exact findRow_append_self hf rfl

/-! Concrete payloads used by counterexamples and witnesses. -/

/-- The spec scenario body
`{name:"T|1GB|30hr", atas:1, bawah:2, belakang:3, komputer:4}` —
note that it carries no `total_fisik` field. -/
def pScenario : StockPayload :=
  ⟨some "T|1GB|30hr", none, none, none, some 1, some 2, some 3, some 4, none⟩

/-- The bulk scenario item `{name:"A", atas:1}`. -/
def pItemA : StockPayload :=
  ⟨some "A", none, none, none, some 1, none, none, none, none⟩

/-- The bulk scenario item `{atas:5}` (missing `name`). -/
def pItemBad : StockPayload :=
  ⟨none, none, none, none, some 5, none, none, none, none⟩

/-- A fully-populated well-formed payload, used to instantiate witnesses. -/
def pDemo : StockPayload :=
  ⟨some "X", some "P", some "V", some "Q", some 1, some 2, some 3, some 4,
   some 6⟩

/-- First call of the double-upsert experiment: name `A`, provider `P1`. -/
def pTwiceFirst : StockPayload :=
  ⟨some "A", some "P1", some "V1", some "Q1", some 1, some 1, some 1, some 1,
   some 3⟩

/-- Second call of the double-upsert experiment: same name, provider `P2`,
different counters. -/
def pTwiceSecond : StockPayload :=
  ⟨some "A", some "P2", some "V2", some "Q2", some 9, some 8, some 7, some 6,
   some 24⟩

/-- **C1 (counterexample).** The spec scenario
`POST /api/stocks {name:"T|1GB|30hr", atas:1, bawah:2, belakang:3, komputer:4}`
succeeds (200) but stores `total_fisik = NULL`, not `6`: the endpoint binds
`total_fisik` straight from the body and never recomputes
`atas + bawah + belakang` server-side. -/
theorem c1_counterexample :
    (postStocks [] 0 pScenario true).status = 200 ∧
    (findRow (postStocks [] 0 pScenario true).store "T|1GB|30hr").map
      StockRow.total_fisik = some none ∧
    (findRow (postStocks [] 0 pScenario true).store "T|1GB|30hr").map
      StockRow.total_fisik ≠ some (some 6) := by
  decide

/-- **C1 (amended).** After every successful single-row upsert
(`POST /api/stocks`, and likewise `/api/stocks/update`), the stored and
returned row's `total_fisik` equals the `total_fisik` value submitted in
the request body — NULL when the field is absent — and is never recomputed
from `atas + bawah + belakang`. -/
theorem c1_total_as_submitted (st : Store) (now : Nat) (p : StockPayload)
    (h : nameFalsy p = false) :
    (postStocks st now p true).data.map StockRow.total_fisik =
      some p.total_fisik ∧
    (findRow (postStocks st now p true).store (jsName p)).map
      StockRow.total_fisik = some p.total_fisik ∧
    ∀ n, p.name = some n →
      (postStocksUpdate st now p true).data.map StockRow.total_fisik =
        some p.total_fisik := by
  obtain ⟨hn1, _, _, _, _, htf, _, hfind⟩ :=
    upsertRowServer_spec st now p (jsName p)
  refine ⟨?_, ?_, ?_⟩
  · rw [postStocks_success st now p h]
    simp [htf]
  · rw [postStocks_success st now p h]
    simp only []
    rw [hfind]
    simp [htf]
  · intro n hn
    obtain ⟨st2, row, heq, _, _, _, _, _, htf2, _, _⟩ :=
      postStocksUpdate_success st now p n hn
    rw [heq]
    simp [htf2]

/-- **C1 (witness).** Concrete instance: upserting the fully-populated
payload `pDemo` (which submits `total_fisik = 6`) stores `6`. -/
theorem c1_witness :
    (postStocks [] 0 pDemo true).data.map StockRow.total_fisik =
      some (some 6) := by
  have h := (c1_total_as_submitted [] 0 pDemo (by decide)).1
  simpa using h

/-- **C2.** `POST /api/stocks/bulk` is all-or-nothing: if the k-th
per-item query of the transaction fails (k below the number of valid
items), ROLLBACK leaves the store exactly as before, the caller gets a 500
error with no count, and nothing is broadcast; when no query fails the
call succeeds with 200, broadcasts nothing, and every valid row of the
batch is persisted. -/
theorem c2_bulk_transactional (st : Store) (now : Nat)
    (items : List StockPayload) (failAt : Option Nat) (hne : items ≠ []) :
    (∀ k, failAt = some k → k < (validItems items).length →
        postStocksBulk st now (.arr items) failAt = ⟨st, 500, none, []⟩) ∧
    ((postStocksBulk st now (.arr items) none).status = 200 ∧
     (postStocksBulk st now (.arr items) none).emits = [] ∧
     ∀ p ∈ validItems items,
       containsName (postStocksBulk st now (.arr items) none).store
         (jsName p) = true) := by
  have hlen : ¬ items.length = 0 := fun h0 => hne (List.length_eq_zero.mp h0)
  constructor
  · intro k hk hklt
    subst hk
    simp [postStocksBulk, hlen, hklt]
  · have hstore : (postStocksBulk st now (.arr items) none).store =
        bulkApply st now (validItems items) := by
      simp [postStocksBulk, hlen, bulkApply]
    refine ⟨by simp [postStocksBulk, hlen], by simp [postStocksBulk, hlen], ?_⟩
    intro p hp
    rw [hstore]
    exact containsName_bulkApply_mem _ _ hp

/-- **C2 (witness).** Concrete instance: a one-item batch whose only
per-item query fails is rolled back to the empty store with a 500. -/
theorem c2_witness :
    postStocksBulk [] 0 (.arr [pItemA]) (some 0) = ⟨[], 500, none, []⟩ := by
  have h := (c2_bulk_transactional [] 0 [pItemA] (some 0) (by simp)).1
  exact h 0 rfl (by decide)

/-- **C3 (counterexample).** The spec scenario
`POST /api/stocks/bulk [{name:"A",atas:1},{atas:5}]` does skip the
nameless item and persists only row `"A"`, but the response is
`{ok:true, count:2}` — `count` is `items.length`, the number of submitted
items including skipped ones, not the number of rows persisted (the claim
requires `{ok:true, count:1}`). -/
theorem c3_counterexample :
    (postStocksBulk [] 0 (.arr [pItemA, pItemBad]) none).status = 200 ∧
    (postStocksBulk [] 0 (.arr [pItemA, pItemBad]) none).store.map
      StockRow.name = ["A"] ∧
    (postStocksBulk [] 0 (.arr [pItemA, pItemBad]) none).count = some 2 ∧
    (postStocksBulk [] 0 (.arr [pItemA, pItemBad]) none).count ≠ some 1 := by
  decide

/-- **C3 (amended).** Invalid items (missing or empty `name`) are silently
skipped and exactly the valid rows are persisted, but the success response
reports the number of items submitted (`items.length`), counting the
skipped ones; the scenario body yields `{ok:true, count:2}` with only row
`"A"` stored. -/
theorem c3_skip_invalid (st : Store) (now : Nat) (items : List StockPayload)
    (hne : items ≠ []) :
    (postStocksBulk st now (.arr items) none).status = 200 ∧
    (postStocksBulk st now (.arr items) none).count = some items.length ∧
    (∀ p ∈ validItems items,
      containsName (postStocksBulk st now (.arr items) none).store
        (jsName p) = true) ∧
    (∀ n, containsName (postStocksBulk st now (.arr items) none).store n =
        true →
      containsName st n = true ∨ ∃ p ∈ validItems items, jsName p = n) := by
  have hlen : ¬ items.length = 0 := fun h0 => hne (List.length_eq_zero.mp h0)
  have hstore : (postStocksBulk st now (.arr items) none).store =
      bulkApply st now (validItems items) := by
    simp [postStocksBulk, hlen, bulkApply]
  refine ⟨by simp [postStocksBulk, hlen], by simp [postStocksBulk, hlen],
    ?_, ?_⟩
  · intro p hp
    rw [hstore]
    exact containsName_bulkApply_mem _ _ hp
  · intro n hn
    rw [hstore] at hn
    exact containsName_bulkApply_cases _ _ hn

/-- **C3 (witness).** Concrete instance of the amended claim at the
scenario body: 200, count 2, row `"A"` present. -/
theorem c3_witness :
    (postStocksBulk [] 0 (.arr [pItemA, pItemBad]) none).count = some 2 ∧
    containsName (postStocksBulk [] 0 (.arr [pItemA, pItemBad]) none).store
      "A" = true := by
  have h := c3_skip_invalid [] 0 [pItemA, pItemBad] (by simp)
  exact ⟨h.2.1, h.2.2.1 pItemA (by decide)⟩

/-- **C4 (counterexample).** Upserting name `"A"` a second time through
`POST /api/stocks` with provider `P2` does NOT overwrite the descriptive
fields: the stored row keeps provider `P1` (and validity/quota likewise),
because the endpoint's `ON CONFLICT` clause updates only the counter
columns and `updated_at` — the claim's "all non-key fields are
overwritten" is false. -/
theorem c4_counterexample :
    (findRow (postStocks (postStocks [] 0 pTwiceFirst true).store 1
        pTwiceSecond true).store "A").map StockRow.provider =
      some (some "P1") ∧
    (findRow (postStocks (postStocks [] 0 pTwiceFirst true).store 1
        pTwiceSecond true).store "A").map StockRow.provider ≠
      some (some "P2") ∧
    (findRow (postStocks (postStocks [] 0 pTwiceFirst true).store 1
        pTwiceSecond true).store "A").map StockRow.atas = some (some 9) ∧
    (postStocks (postStocks [] 0 pTwiceFirst true).store 1
        pTwiceSecond true).store.length = 1 := by
  decide

/-- **C4 (amended).** For a single-row upsert on an existing name, only
the counter fields (`atas`, `bawah`, `belakang`, `komputer`,
`total_fisik`) are overwritten with the submitted values and `updated_at`
is stamped; `provider`, `validity`, `quota` retain their stored values.
The store keeps exactly as many rows as before, so upserting the same name
twice leaves one row carrying the second call's counters and the first
call's descriptive fields. -/
theorem c4_conflict_updates_counters (st : Store) (now : Nat)
    (p : StockPayload) (n : String) (old : StockRow) (hn : p.name = some n)
    (hne : n ≠ "") (hfind : findRow st n = some old) :
    findRow (postStocks st now p true).store n = some
      { old with
        atas := p.atas, bawah := p.bawah, belakang := p.belakang,
        komputer := p.komputer, total_fisik := p.total_fisik,
        updated_at := now } ∧
    (postStocks st now p true).store.length = st.length ∧
    (postStocks st now p true).status = 200 := by
  have hname := findRow_name hfind
  have hc := containsName_of_findRow hfind
  have hfalse : nameFalsy p = false := by simp [nameFalsy, hn, hne]
  have hjs : jsName p = n := by simp [jsName, hn]
  rw [postStocks_success st now p hfalse, hjs]
  simp only [upsertRowServer, hfind]
  exact ⟨findRow_map_set hc hname, by simp, by trivial⟩

/-- **C4 (witness).** Concrete instance: after the two upserts of the
counterexample experiment, the stored row is exactly the first row with
the second call's counters and timestamp. -/
theorem c4_witness :
    findRow (postStocks (postStocks [] 0 pTwiceFirst true).store 1
        pTwiceSecond true).store "A" = some
      ⟨"A", some "P1", some "V1", some "Q1", some 9, some 8, some 7, some 6,
       some 24, 1⟩ := by
  have h := (c4_conflict_updates_counters
    (postStocks [] 0 pTwiceFirst true).store 1 pTwiceSecond "A"
    ⟨"A", some "P1", some "V1", some "Q1", some 1, some 1, some 1, some 1,
     some 3, 0⟩ rfl (by decide) (by decide)).1
  simpa using h

/-- **C5.** Every successful single-row upsert (`POST /api/stocks` and
`POST /api/stocks/update`) emits exactly one `stock_update` broadcast
whose payload is the row as persisted (`RETURNING *`, with the
server-assigned `updated_at`), and a failed write emits nothing and
leaves the store untouched. -/
theorem c5_single_broadcast (st : Store) (now : Nat) (p : StockPayload)
    (h : nameFalsy p = false) :
    (∃ row, (postStocks st now p true).data = some row ∧
       (postStocks st now p true).emits = [row] ∧
       findRow (postStocks st now p true).store row.name = some row ∧
       row.updated_at = now) ∧
    (postStocks st now p false).emits = [] ∧
    (postStocks st now p false).store = st ∧
    (∃ row, (postStocksUpdate st now p true).data = some row ∧
       (postStocksUpdate st now p true).emits = [row] ∧
       findRow (postStocksUpdate st now p true).store row.name = some row ∧
       row.updated_at = now) ∧
    (postStocksUpdate st now p false).emits = [] ∧
    (postStocksUpdate st now p false).store = st := by
  obtain ⟨hn1, _, _, _, _, _, hupd, hfind⟩ :=
    upsertRowServer_spec st now p (jsName p)
  obtain ⟨hn, _⟩ := nameFalsy_false h
  obtain ⟨st2, row, heq, hrn, _, _, _, _, _, hupd2, hfind2⟩ :=
    postStocksUpdate_success st now p (jsName p) hn
  refine ⟨?_, by simp [postStocks, h], by simp [postStocks, h], ?_, ?_, ?_⟩
  · refine ⟨(upsertRowServer st now p (jsName p)).2, ?_, ?_, ?_, hupd⟩
    · rw [postStocks_success st now p h]
    · rw [postStocks_success st now p h]
    · rw [postStocks_success st now p h]
      simp only []
      rw [hn1]
      exact hfind
  · refine ⟨row, ?_, ?_, ?_, hupd2⟩
    · rw [heq]
    · rw [heq]
    · rw [heq]
      simp only []
      rw [hrn]
      exact hfind2
  · simp [postStocksUpdate]
  · simp [postStocksUpdate]

/-- **C5 (witness).** Concrete instance: one broadcast on success, none on
failure. -/
theorem c5_witness :
    (postStocks [] 0 pDemo true).emits.length = 1 ∧
    (postStocks [] 0 pDemo false).emits = [] := by
  obtain ⟨⟨row, _, he, _, _⟩, h2, _, _, _, _⟩ :=
    c5_single_broadcast [] 0 pDemo (by decide)
  exact ⟨by rw [he]; rfl, h2⟩

/-- **C6.** When `applyRemoteUpdate` handles a `stock_update` broadcast
whose name matches a displayed row, it overwrites that row's four counter
inputs with `field || 0` from the payload and recomputes the derived total
via `hitungTotal`, leaves every other row untouched, and issues NO
outbound request (no `sendRowUpdate`, no bulk snapshot): the returned
message list is empty, so a remote update never echoes a write. -/
theorem c6_no_echo (pre post : List ClientRow) (tr : ClientRow)
    (row : StockRow) (hpre : ∀ r ∈ pre, r.name ≠ row.name)
    (hm : tr.name = row.name) :
    applyRemoteUpdate (pre ++ tr :: post) row =
      (pre ++ hitungTotal
        { tr with
          atas := jsOrZero row.atas, bawah := jsOrZero row.bawah,
          belakang := jsOrZero row.belakang,
          komputer := jsOrZero row.komputer } :: post, []) := by
  induction pre with
  | nil =>
      simp only [List.nil_append, applyRemoteUpdate]
      rw [if_pos (by simp [hm])]
  | cons x xs ih =>
      have hx : x.name ≠ row.name := hpre x (List.mem_cons_self x xs)
      have ih2 := ih (fun r hr => hpre r (List.mem_cons_of_mem x hr))
      simp only [List.cons_append, applyRemoteUpdate]
      rw [if_neg (by simp [hx])]
      simp only [List.append_eq]
      rw [ih2]

/-- **C6 (witness).** Concrete instance: applying a broadcast with
counters 5/6/7/8 to the matching displayed row overwrites them, recomputes
the total to 18, and sends nothing. -/
theorem c6_witness :
    applyRemoteUpdate [⟨"A", 1, 1, 1, 1, 3⟩]
      ⟨"A", none, none, none, some 5, some 6, some 7, some 8, some 21, 9⟩ =
      ([⟨"A", 5, 6, 7, 8, 18⟩], []) := by
  have h := c6_no_echo [] [] ⟨"A", 1, 1, 1, 1, 3⟩
    ⟨"A", none, none, none, some 5, some 6, some 7, some 8, some 21, 9⟩
    (by simp) rfl
  simp only [List.nil_append] at h
  rw [h]
  decide

/-- A single-row body whose `name` is the empty string. -/
def pEmptyName : StockPayload :=
  ⟨some "", none, none, none, some 1, some 2, some 3, some 4, some 6⟩

/-- **C7 (counterexample).** `POST /api/stocks/update` (src/unnamed/
part_000) performs no name validation: a body with the empty-string name
is not rejected with 400 — on an empty store it INSERTs a row keyed `""`,
answers 200, and broadcasts it, contradicting "returns a 400 client error
and attempts no mutation". -/
theorem c7_counterexample :
    (postStocksUpdate [] 0 pEmptyName true).status = 200 ∧
    (postStocksUpdate [] 0 pEmptyName true).status ≠ 400 ∧
    (postStocksUpdate [] 0 pEmptyName true).store ≠ [] ∧
    (postStocksUpdate [] 0 pEmptyName true).emits ≠ [] := by
  decide

/-- **C7 (amended).** `POST /api/stocks` does validate: a missing or empty
`name` yields 400 with no store mutation and no broadcast, and a non-empty
name with healthy storage yields 200 with `{ok:true, data}`.
`POST /api/stocks/update` has no such guard: it attempts the write
regardless (an absent name makes the fallback INSERT violate the NOT NULL
primary key, surfacing as 500; an empty-string name is simply written). -/
theorem c7_name_validation (st : Store) (now : Nat) (p : StockPayload)
    (b : Bool) :
    (nameFalsy p = true → postStocks st now p b = ⟨st, 400, none, []⟩) ∧
    (nameFalsy p = false → (postStocks st now p true).status = 200 ∧
      (postStocks st now p true).data.isSome = true) ∧
    (p.name = none → postStocksUpdate st now p true = ⟨st, 500, none, []⟩) := by
  refine ⟨?_, ?_, ?_⟩
  · intro h
    simp [postStocks, h]
  · intro h
    rw [postStocks_success st now p h]
    exact ⟨rfl, rfl⟩
  · intro h
    simp [postStocksUpdate, h]

/-- **C7 (witness).** Concrete instances: the guarded endpoint rejects an
empty name with 400 and accepts a well-formed body with 200. -/
theorem c7_witness :
    postStocks [] 0 pEmptyName true = ⟨[], 400, none, []⟩ ∧
    (postStocks [] 0 pDemo true).status = 200 := by
  have h1 := (c7_name_validation [] 0 pEmptyName true).1 (by decide)
  have h2 := ((c7_name_validation [] 0 pDemo true).2.1 (by decide)).1
  exact ⟨h1, h2⟩

/-- **C8 (counterexample).** A non-empty name-keyed object body is NOT
accepted and normalized by `POST /api/stocks/bulk`: `Array.isArray` fails,
so the endpoint answers 400 and touches nothing — the claim says 400 is
returned only when the body is neither a non-empty array nor a non-empty
object. -/
theorem c8_counterexample :
    (postStocksBulk [] 0 (.obj [("A", pItemA)]) none).status = 400 ∧
    (postStocksBulk [] 0 (.obj [("A", pItemA)]) none).store = [] := by
  decide

/-- **C8 (amended).** The bulk endpoint accepts only a JSON array body:
it returns 400 exactly when the body is not a non-empty array — in
particular for every object body, which is never normalized to a
sequence. -/
theorem c8_array_only (st : Store) (now : Nat) (body : BulkBody)
    (failAt : Option Nat) :
    (postStocksBulk st now body failAt).status = 400 ↔
      ∀ items, body = BulkBody.arr items → items = [] := by
  cases body with
  | arr items =>
      by_cases h : items.length = 0
      · have he : items = [] := List.length_eq_zero.mp h
        subst he
        simp [postStocksBulk]
      · constructor
        · intro hs
          exfalso
          cases failAt with
          | none => simp [postStocksBulk, h] at hs
          | some k =>
              by_cases hk : k < (validItems items).length
              · simp [postStocksBulk, h, hk] at hs
              · simp [postStocksBulk, h, hk] at hs
        · intro hall
          exact absurd (hall items rfl) (fun he => h (by rw [he]; rfl))
  | obj fields => simp [postStocksBulk]
  | scalar => simp [postStocksBulk]

/-- **C8 (witness).** Concrete instance: a non-empty array body is not
rejected with 400. -/
theorem c8_witness :
    (postStocksBulk [] 0 (.arr [pItemA]) none).status ≠ 400 := by
  intro hs
  have h := (c8_array_only [] 0 (.arr [pItemA]) none).mp hs [pItemA] rfl
  simp at h

/-- Bulk item with name `"B"` and no other fields. -/
def pOrderB : StockPayload :=
  ⟨some "B", none, none, none, none, none, none, none, none⟩

/-- Bulk item with name `"A"` and no other fields. -/
def pOrderA : StockPayload :=
  ⟨some "A", none, none, none, none, none, none, none, none⟩

/-- The row `"B"` as the bulk endpoint persists `pOrderB` at time 0. -/
def rowNamedB : StockRow :=
  ⟨"B", some "", some "", some "", some 0, some 0, some 0, some 0, some 0, 0⟩

/-- The row `"A"` as the bulk endpoint persists `pOrderA` at time 0. -/
def rowNamedA : StockRow :=
  ⟨"A", some "", some "", some "", some 0, some 0, some 0, some 0, some 0, 0⟩

/-- **C9 (counterexample).** src/unnamed/part_000's `GET /api/stocks` has
no `ORDER BY`: on a store reached by bulk-inserting `"B"` before `"A"`,
it returns the rows in table order `["B", "A"]`, which is not ordered by
name — the claim's "returns the full current row set ... ordered by name"
fails for this variant. -/
theorem c9_counterexample :
    (postStocksBulk [] 0 (.arr [pOrderB, pOrderA]) none).store =
      [rowNamedB, rowNamedA] ∧
    (getStocksNoOrder [rowNamedB, rowNamedA] true).data =
      some [rowNamedB, rowNamedA] ∧
    ¬ List.Sorted rowLe [rowNamedB, rowNamedA] := by
  refine ⟨by decide, rfl, ?_⟩
  intro hs
  rw [List.sorted_cons] at hs
  have hba := hs.1 rowNamedA (by simp)
  have hba2 : ("B" : String) ≤ "A" := hba
  rw [String.le_iff_toList_le] at hba2
  revert hba2
  decide

/-- **C9 (amended).** src/server.js's `GET /api/stocks` returns the full
row set sorted by name; src/unnamed/part_000's variant returns the same
rows but in table order, with no sorting guarantee.  Both return `[]`
(status 200), not an error, on an empty store, and both surface storage
unavailability as a 500 infrastructure error. -/
theorem c9_get_all (st : Store) :
    (∃ l, getStocks st true = ⟨200, some l⟩ ∧ l.Sorted rowLe ∧ l.Perm st) ∧
    getStocks [] true = ⟨200, some []⟩ ∧
    getStocks st false = ⟨500, none⟩ ∧
    getStocksNoOrder st true = ⟨200, some st⟩ ∧
    getStocksNoOrder [] true = ⟨200, some []⟩ ∧
    getStocksNoOrder st false = ⟨500, none⟩ := by
  exact ⟨⟨sortByName st, rfl, sorted_sortByName st, perm_sortByName st⟩,
    rfl, rfl, rfl, rfl, rfl⟩

/-- A single-row body carrying only a name, no counter fields at all. -/
def pSparse : StockPayload :=
  ⟨some "S", none, none, none, none, none, none, none, none⟩

/-- **C10.** The two write endpoints default missing counters
asymmetrically: inserting a fresh name through `POST /api/stocks` binds
`atas`, `bawah`, `belakang`, `komputer`, `total_fisik` straight from the
body, storing NULL for each absent field, while `POST /api/stocks/bulk`
substitutes 0 for every missing counter of an item before writing. -/
theorem c10_default_asymmetry (st : Store) (now : Nat) (p : StockPayload)
    (n : String) (hn : p.name = some n) (hne : n ≠ "")
    (habs : findRow st n = none) :
    findRow (postStocks st now p true).store n = some
      ⟨n, some (jsOrEmpty p.provider), some (jsOrEmpty p.validity),
       some (jsOrEmpty p.quota), p.atas, p.bawah, p.belakang, p.komputer,
       p.total_fisik, now⟩ ∧
    findRow (postStocksBulk st now (.arr [p]) none).store n = some
      ⟨n, some (jsOrEmpty p.provider), some (jsOrEmpty p.validity),
       some (jsOrEmpty p.quota), some (p.atas.getD 0), some (p.bawah.getD 0),
       some (p.belakang.getD 0), some (p.komputer.getD 0),
       some (p.total_fisik.getD 0), now⟩ := by
  have hfalse : nameFalsy p = false := by simp [nameFalsy, hn, hne]
  have hjs : jsName p = n := by simp [jsName, hn]
  constructor
  · rw [postStocks_success st now p hfalse, hjs]
    simp only [upsertRowServer, habs]
    exact findRow_append_self habs rfl
  · have hvalid : validItems [p] = [p] := by simp [validItems, hfalse]
    have hcf : containsName st n = false :=
      containsName_false_of_findRow_none habs
    have hbn : (bulkRow now p).name = n := by simp [bulkRow, hjs]
    have hstore : (postStocksBulk st now (.arr [p]) none).store =
        upsertRowBulk st (bulkRow now p) := by
      simp [postStocksBulk, hvalid]
    have happ : upsertRowBulk st (bulkRow now p) = st ++ [bulkRow now p] := by
      rw [upsertRowBulk, hbn]
      simp [hcf]
    rw [hstore, happ, findRow_append_self habs hbn]
    simp [bulkRow, hjs]

/-- **C10 (witness).** Concrete instance: the counter-less body `pSparse`
stores all-NULL counters through the single endpoint and all-zero counters
through the bulk endpoint. -/
theorem c10_witness :
    findRow (postStocks [] 0 pSparse true).store "S" = some
      ⟨"S", some "", some "", some "", none, none, none, none, none, 0⟩ ∧
    findRow (postStocksBulk [] 0 (.arr [pSparse]) none).store "S" = some
      ⟨"S", some "", some "", some "", some 0, some 0, some 0, some 0,
       some 0, 0⟩ := by
  have h := c10_default_asymmetry [] 0 pSparse "S" rfl (by decide) (by decide)
  simpa [jsOrEmpty] using h

end StockCalc
